import Mathlib

/-!
Verification of the InteliSense concurrent resource-orchestration core:
the bounded browser pool (`src/src/utils/browser-pool.js`), the single-flight
/ retry scheduler (`src/src/scheduler.js`, `OptimizedScheduler`), and the
TTL cache wrapper (`src/src/utils/monitor.js`, `CacheManager.getOrSet`).

The JavaScript runs on a single event loop; state mutation is atomic between
`await` points.  The pool is therefore embedded as a state machine whose
events are the synchronous segments of the source functions: `getBrowser`
runs synchronously up to `await this.createBrowser()` (which suspends inside
`puppeteer.launch`), so an acquire that takes the creation path is two
events; `releaseBrowser`, `removeBrowser`, and the timeout callback are each
one synchronous segment.  Promise identities are tracked as call ids so that
resolution order (FIFO fairness) is observable.
-/

namespace BrowserPool

/-- One element of `this.browsers`: the wrapper object
`{ browser, lastUsed, isActive }` pushed by `createBrowser`.  The underlying
puppeteer browser is identified by `bid`; the wall-clock `lastUsed` stamp is
abstracted away (no claim depends on it). -/
structure BrowserEntry where
  bid : Nat
  isActive : Bool
deriving DecidableEq, Repr

/-- Errors a `getBrowser` promise can reject with (source lines 92 and 125). -/
inductive PoolErr
  | shuttingDown
  | poolTimeout
deriving DecidableEq, Repr

/-- Status of one `getBrowser` invocation (one promise). `pendingCreate`
means the call is suspended at `await this.createBrowser()`; `waiting` means
its `{ resolve, reject, timeout }` record was pushed on `this.queue`;
`served b` / `failed e` mean the promise is settled. -/
inductive CallStatus
  | pendingCreate
  | waiting
  | served (bid : Nat)
  | failed (err : PoolErr)
deriving DecidableEq, Repr

/-- The mutable fields of the `BrowserPool` instance, plus the bookkeeping
of outstanding `getBrowser` promises (`calls`) and a fresh-id counter for
created browsers (`nextBid`). `activeBrowsers` is an integer because the
JavaScript counter is decremented without a lower-bound check. -/
structure PoolState where
  maxBrowsers : Nat
  browsers : List BrowserEntry
  activeBrowsers : Int
  queue : List Nat
  calls : List (Nat × CallStatus)
  nextBid : Nat
  isShuttingDown : Bool
deriving DecidableEq, Repr

/-- The pool right after the constructor: no browsers, count 0, empty queue. -/
def initPool (M : Nat) : PoolState :=
  { maxBrowsers := M, browsers := [], activeBrowsers := 0, queue := [],
    calls := [], nextBid := 0, isShuttingDown := false }

/-- Status of the promise of call `cid` (first record wins, as for a map). -/
def callStatusOf : List (Nat × CallStatus) → Nat → Option CallStatus
  | [], _ => none
  | p :: rest, cid => if p.1 == cid then some p.2 else callStatusOf rest cid

/-- `this.browsers.find(b => !b.isActive)` followed by marking the found
wrapper active: returns the updated list and the id of the browser taken,
or `none` when every browser is active. -/
def markFirstIdle : List BrowserEntry → Option (List BrowserEntry × Nat)
  | [] => none
  | e :: rest =>
    if e.isActive then
      (markFirstIdle rest).map (fun p => (e :: p.1, p.2))
    else
      some ({ e with isActive := true } :: rest, e.bid)

/-- `this.browsers.find(b => b.browser === browser)` followed by
`browserObj.isActive = false` on the first match (release path). -/
def setInactiveFirst (bid : Nat) : List BrowserEntry → List BrowserEntry
  | [] => []
  | e :: rest =>
    if e.bid == bid then { e with isActive := false } :: rest
    else e :: setInactiveFirst bid rest

/-- Settling a promise: the first `calls` record for `cid` has `f` applied
to its status; settled promises are left unchanged by the `f` used below,
mirroring that `resolve` / `reject` on a settled promise is a no-op. -/
def settleWith (f : CallStatus → CallStatus) : List (Nat × CallStatus) → Nat → List (Nat × CallStatus)
  | [], _ => []
  | p :: rest, cid =>
    if p.1 == cid then (p.1, f p.2) :: rest
    else p :: settleWith f rest cid

/-- `resolve(browser)`: only a still-pending enqueued call is served. -/
def resolveWaiting (bid : Nat) : CallStatus → CallStatus
  | .waiting => .served bid
  | st => st

/-- The `setTimeout` callback: `reject(new Error('Browser pool timeout'))`. -/
def rejectWaiting : CallStatus → CallStatus
  | .waiting => .failed .poolTimeout
  | st => st

/-- Resolution of the `await this.createBrowser()` continuation in
`getBrowser` (lines 112-120): the launched browser is pushed as an idle
wrapper, immediately found again by identity and marked active, and the
active count is incremented — all in one synchronous segment.  Note the
`this.browsers.length < this.maxBrowsers` guard was checked before the
suspension and is not re-checked here. -/
def getBrowserResume (s : PoolState) (cid : Nat) : PoolState :=
  match callStatusOf s.calls cid with
  | some .pendingCreate =>
    { s with browsers := s.browsers ++ [{ bid := s.nextBid, isActive := true }],
             activeBrowsers := s.activeBrowsers + 1,
             nextBid := s.nextBid + 1,
             calls := settleWith (fun st => match st with
               | .pendingCreate => .served s.nextBid
               | st => st) s.calls cid }
  | _ => s

/-- The synchronous part of `getBrowser` (lines 90-130), up to its first
suspension: shutdown check, idle-browser fast path, the
`browsers.length < maxBrowsers` creation check (leaving the call
`pendingCreate`, to be finished by `getBrowserResume`), else enqueue. -/
def getBrowserStart (s : PoolState) (cid : Nat) : PoolState :=
  if s.isShuttingDown then
    { s with calls := (cid, .failed .shuttingDown) :: s.calls }
  else
    match markFirstIdle s.browsers with
    | some (bs, bid) =>
      { s with browsers := bs, activeBrowsers := s.activeBrowsers + 1,
               calls := (cid, .served bid) :: s.calls }
    | none =>
      if s.browsers.length < s.maxBrowsers then
        { s with calls := (cid, .pendingCreate) :: s.calls }
      else
        { s with queue := s.queue ++ [cid], calls := (cid, .waiting) :: s.calls }

/-- `releaseBrowser(browser)` (lines 132-152): if the browser is tracked,
mark its wrapper idle and decrement the active count, then, if the queue is
non-empty, shift the oldest record, clear its timer and resolve it with this
browser.  An untracked browser leaves the state untouched. -/
def releaseBrowser (s : PoolState) (bid : Nat) : PoolState :=
  if s.browsers.any (fun e => e.bid == bid) then
    let s1 := { s with browsers := setInactiveFirst bid s.browsers,
                       activeBrowsers := s.activeBrowsers - 1 }
    match s1.queue with
    | [] => s1
    | cid :: rest =>
      { s1 with queue := rest, calls := settleWith (resolveWaiting bid) s1.calls cid }
  else s

/-- The acquire-timeout callback (lines 124-126): it rejects the promise but
does not touch `this.queue`, so the record stays enqueued. -/
def timeoutFire (s : PoolState) (cid : Nat) : PoolState :=
  { s with calls := settleWith rejectWaiting s.calls cid }

/-- `removeBrowser(browser)` (lines 219-227), run by the `disconnected`
listener.  The decrement is guarded by `browser.isActive`, where `browser`
is the raw puppeteer object; the pool keeps the flag on its wrapper entries,
so this property read yields `undefined` (falsy) for every browser. -/
def jsBrowserObjectIsActive (_bid : Nat) : Bool := false

/-- `removeBrowser` as written: splice the wrapper out, then decrement the
active count only if `browser.isActive` is truthy. -/
def removeBrowser (s : PoolState) (bid : Nat) : PoolState :=
  match s.browsers.findIdx? (fun e => e.bid == bid) with
  | none => s
  | some i =>
    { s with browsers := s.browsers.eraseIdx i,
             activeBrowsers :=
               if jsBrowserObjectIsActive bid then s.activeBrowsers - 1
               else s.activeBrowsers }

/-- `executeWithBrowser(operation)` (lines 154-179), parametrised by the
outcome of `await this.getBrowser()` and by the operation (its outcome as a
function of the browser handed over).  The `try` returns the operation
result, the `catch` rethrows the error unchanged, and the `finally` releases
the browser whenever one was acquired. -/
def executeWithBrowser (s : PoolState) (acq : Except ε Nat) (op : Nat → Except ε α) :
    PoolState × Except ε α :=
  match acq with
  | .error e => (s, .error e)
  | .ok b =>
    match op b with
    | .ok v => (releaseBrowser s b, .ok v)
    | .error e => (releaseBrowser s b, .error e)

/-- Events of the interleaved event-loop semantics. -/
inductive PoolEvent
  | acquireStart (cid : Nat)
  | createFinish (cid : Nat)
  | timeout (cid : Nat)
  | release (bid : Nat)
deriving DecidableEq, Repr

/-- One synchronous event-loop segment. -/
def step (s : PoolState) : PoolEvent → PoolState
  | .acquireStart cid => getBrowserStart s cid
  | .createFinish cid => getBrowserResume s cid
  | .timeout cid => timeoutFire s cid
  | .release bid => releaseBrowser s bid

/-- Run a trace of event-loop segments. -/
def runTrace (s : PoolState) (evs : List PoolEvent) : PoolState :=
  evs.foldl step s

/-- A whole `getBrowser` call running without interleaving: the synchronous
part, immediately followed (when the creation path was taken) by the
creation continuation. -/
def getBrowserSeq (s : PoolState) (cid : Nat) : PoolState :=
  let s1 := getBrowserStart s cid
  match callStatusOf s1.calls cid with
  | some .pendingCreate => getBrowserResume s1 cid
  | _ => s1

/-- Pool operations of a non-overlapping (sequential) history: each acquire
completes its creation before the next operation begins. -/
inductive SeqOp
  | acquire (cid : Nat)
  | release (bid : Nat)
  | timeout (cid : Nat)
deriving DecidableEq, Repr

/-- One sequential pool operation. -/
def stepSeq (s : PoolState) : SeqOp → PoolState
  | .acquire cid => getBrowserSeq s cid
  | .release bid => releaseBrowser s bid
  | .timeout cid => timeoutFire s cid

/-- Run a sequential history. -/
def runSeq (s : PoolState) (ops : List SeqOp) : PoolState :=
  ops.foldl stepSeq s

/-- Number of wrappers currently flagged active. -/
def activeFlags (bs : List BrowserEntry) : Nat :=
  (bs.filter (fun e => e.isActive)).length

end BrowserPool

namespace BrowserPool

lemma markFirstIdle_spec (bs : List BrowserEntry) :
    ∀ bs2 b, markFirstIdle bs = some (bs2, b) →
      bs2.length = bs.length ∧ activeFlags bs2 = activeFlags bs + 1 := by
  induction bs with
  | nil => intro bs2 b h; simp [markFirstIdle] at h
  | cons e rest ih =>
    intro bs2 b h
    by_cases he : e.isActive
    · simp only [markFirstIdle, he, if_pos] at h
      rcases hm : markFirstIdle rest with _ | p
      · rw [hm] at h; simp at h
      · obtain ⟨l, b0⟩ := p
        rw [hm] at h
        have h2 : (e :: l, b0) = (bs2, b) := by simpa using h
        obtain ⟨hl, hb⟩ := ih l b0 hm
        cases h2
        constructor
        · simp [hl]
        · simp [activeFlags, he, List.filter_cons] at hb ⊢
          omega
    · simp only [markFirstIdle, he, if_neg, Bool.false_eq_true, not_false_iff] at h
      cases h
      constructor
      · simp
      · simp [activeFlags, List.filter_cons, he]

lemma setInactiveFirst_length (bid : Nat) (bs : List BrowserEntry) :
    (setInactiveFirst bid bs).length = bs.length := by
  induction bs with
  | nil => rfl
  | cons e rest ih =>
    by_cases he : e.bid == bid
    · simp [setInactiveFirst, he]
    · simp [setInactiveFirst, he, ih]

lemma setInactiveFirst_activeFlags (bid : Nat) (bs : List BrowserEntry) :
    activeFlags bs ≤ activeFlags (setInactiveFirst bid bs) + 1 := by
  induction bs with
  | nil => simp [setInactiveFirst, activeFlags]
  | cons e rest ih =>
    by_cases he : e.bid == bid
    · simp only [setInactiveFirst, he, if_pos]
      by_cases ha : e.isActive
      · simp [activeFlags, List.filter_cons, ha] at ih ⊢
      · simp [activeFlags, List.filter_cons, ha] at ih ⊢
    · simp only [setInactiveFirst, he, if_neg, Bool.false_eq_true, not_false_iff]
      by_cases ha : e.isActive <;>
        simp [activeFlags, List.filter_cons, ha] at ih ⊢ <;> omega

lemma activeFlags_le_length (bs : List BrowserEntry) :
    activeFlags bs ≤ bs.length :=
  List.length_filter_le _ bs

/-- The pool invariant maintained by non-overlapping operations. -/
def PoolInv (s : PoolState) : Prop :=
  s.activeBrowsers ≤ (activeFlags s.browsers : Int) ∧
    s.browsers.length ≤ s.maxBrowsers

lemma callStatusOf_cons_self (cid : Nat) (st : CallStatus) (calls : List (Nat × CallStatus)) :
    callStatusOf ((cid, st) :: calls) cid = some st := by
  simp [callStatusOf]

lemma getBrowserStart_maxBrowsers (s : PoolState) (cid : Nat) :
    (getBrowserStart s cid).maxBrowsers = s.maxBrowsers := by
  unfold getBrowserStart
  by_cases hsd : s.isShuttingDown
  · simp [hsd]
  · rcases hm : markFirstIdle s.browsers with _ | ⟨bs, bid⟩
    · by_cases hlen : s.browsers.length < s.maxBrowsers <;> simp [hsd, hm, hlen]
    · simp [hsd, hm]

lemma getBrowserResume_maxBrowsers (s : PoolState) (cid : Nat) :
    (getBrowserResume s cid).maxBrowsers = s.maxBrowsers := by
  unfold getBrowserResume
  rcases hst : callStatusOf s.calls cid with _ | st
  · simp
  · cases st <;> simp

lemma releaseBrowser_found (s : PoolState) (bid : Nat)
    (hb : s.browsers.any (fun e => e.bid == bid) = true) :
    (releaseBrowser s bid).browsers = setInactiveFirst bid s.browsers ∧
      (releaseBrowser s bid).activeBrowsers = s.activeBrowsers - 1 ∧
      (releaseBrowser s bid).maxBrowsers = s.maxBrowsers := by
  unfold releaseBrowser
  rw [if_pos hb]
  rcases hq : s.queue with _ | ⟨c, rest⟩ <;> simp [hq]

lemma releaseBrowser_found_queue (s : PoolState) (bid c : Nat) (rest : List Nat)
    (hb : s.browsers.any (fun e => e.bid == bid) = true) (hq : s.queue = c :: rest) :
    (releaseBrowser s bid).queue = rest ∧
      (releaseBrowser s bid).calls = settleWith (resolveWaiting bid) s.calls c := by
  unfold releaseBrowser
  rw [if_pos hb]
  simp [hq]

lemma releaseBrowser_maxBrowsers (s : PoolState) (bid : Nat) :
    (releaseBrowser s bid).maxBrowsers = s.maxBrowsers := by
  by_cases hb : s.browsers.any (fun e => e.bid == bid)
  · exact (releaseBrowser_found s bid hb).2.2
  · simp [releaseBrowser, hb]

lemma getBrowserStart_pendingCreate (s : PoolState) (cid : Nat)
    (h : callStatusOf (getBrowserStart s cid).calls cid = some .pendingCreate) :
    (getBrowserStart s cid).browsers = s.browsers ∧
      s.browsers.length < s.maxBrowsers ∧
      (getBrowserStart s cid).nextBid = s.nextBid ∧
      (getBrowserStart s cid).activeBrowsers = s.activeBrowsers := by
  by_cases hsd : s.isShuttingDown
  · simp only [getBrowserStart, hsd, if_pos] at h
    rw [callStatusOf_cons_self] at h
    cases h
  · rcases hm : markFirstIdle s.browsers with _ | p
    · by_cases hlen : s.browsers.length < s.maxBrowsers
      · simp [getBrowserStart, hsd, hm, hlen]
      · simp only [getBrowserStart, hsd, if_neg, hm, hlen, Bool.false_eq_true,
          not_false_iff, if_false] at h
        rw [callStatusOf_cons_self] at h
        cases h
    · obtain ⟨bs, bid⟩ := p
      simp only [getBrowserStart, hsd, if_neg, hm, Bool.false_eq_true, not_false_iff] at h
      rw [callStatusOf_cons_self] at h
      cases h

lemma poolInv_getBrowserStart (s : PoolState) (cid : Nat) (h : PoolInv s) :
    PoolInv (getBrowserStart s cid) := by
  obtain ⟨h1, h2⟩ := h
  by_cases hsd : s.isShuttingDown
  · simpa [getBrowserStart, hsd, PoolInv] using ⟨h1, h2⟩
  · rcases hm : markFirstIdle s.browsers with _ | p
    · by_cases hlen : s.browsers.length < s.maxBrowsers <;>
        simpa [getBrowserStart, hsd, hm, hlen, PoolInv] using ⟨h1, h2⟩
    · obtain ⟨bs, bid⟩ := p
      obtain ⟨hl, hf⟩ := markFirstIdle_spec s.browsers bs bid hm
      refine ⟨?_, ?_⟩ <;> simp only [getBrowserStart, hsd, if_neg, hm, Bool.false_eq_true,
        not_false_iff]
      · simp only [hf]
        push_cast
        omega
      · simp [hl, h2]

lemma poolInv_getBrowserSeq (s : PoolState) (cid : Nat) (h : PoolInv s) :
    PoolInv (getBrowserSeq s cid) := by
  have hstart := poolInv_getBrowserStart s cid h
  unfold getBrowserSeq
  rcases hst : callStatusOf (getBrowserStart s cid).calls cid with _ | st
  · simpa [hst] using hstart
  · cases st with
    | pendingCreate =>
      obtain ⟨hbs, hlen, _, _⟩ := getBrowserStart_pendingCreate s cid hst
      obtain ⟨h1, h2⟩ := hstart
      simp only [hst, getBrowserResume, hst]
      refine ⟨?_, ?_⟩
      · simp only [PoolState.browsers]
        have : activeFlags ((getBrowserStart s cid).browsers ++
            [{ bid := (getBrowserStart s cid).nextBid, isActive := true }]) =
            activeFlags (getBrowserStart s cid).browsers + 1 := by
          simp [activeFlags, List.filter_append]
        rw [this]
        push_cast
        omega
      · simp only [List.length_append, List.length_cons, List.length_nil,
          getBrowserStart_maxBrowsers]
        rw [hbs]
        omega
    | waiting => simpa [hst] using hstart
    | served b => simpa [hst] using hstart
    | failed e => simpa [hst] using hstart

lemma poolInv_releaseBrowser (s : PoolState) (bid : Nat) (h : PoolInv s) :
    PoolInv (releaseBrowser s bid) := by
  obtain ⟨h1, h2⟩ := h
  by_cases hb : s.browsers.any (fun e => e.bid == bid)
  · obtain ⟨hbs, hact, hmax⟩ := releaseBrowser_found s bid hb
    have hf := setInactiveFirst_activeFlags bid s.browsers
    have hl := setInactiveFirst_length bid s.browsers
    refine ⟨?_, ?_⟩
    · rw [hbs, hact]
      have hfi : (activeFlags s.browsers : Int) ≤
          (activeFlags (setInactiveFirst bid s.browsers) : Int) + 1 := by
        exact_mod_cast hf
      omega
    · rw [hbs, hmax, hl]
      exact h2
  · simpa [releaseBrowser, hb, PoolInv] using ⟨h1, h2⟩

lemma poolInv_timeoutFire (s : PoolState) (cid : Nat) (h : PoolInv s) :
    PoolInv (timeoutFire s cid) := by
  simpa [timeoutFire, PoolInv] using h

lemma poolInv_stepSeq (s : PoolState) (op : SeqOp) (h : PoolInv s) :
    PoolInv (stepSeq s op) := by
  cases op with
  | acquire cid => exact poolInv_getBrowserSeq s cid h
  | release bid => exact poolInv_releaseBrowser s bid h
  | timeout cid => exact poolInv_timeoutFire s cid h

lemma maxBrowsers_stepSeq (s : PoolState) (op : SeqOp) :
    (stepSeq s op).maxBrowsers = s.maxBrowsers := by
  cases op with
  | acquire cid =>
    show (getBrowserSeq s cid).maxBrowsers = s.maxBrowsers
    unfold getBrowserSeq
    rcases hst : callStatusOf (getBrowserStart s cid).calls cid with _ | st
    · simpa [hst] using getBrowserStart_maxBrowsers s cid
    · cases st <;> simp only [hst] <;>
        first
        | rw [getBrowserResume_maxBrowsers, getBrowserStart_maxBrowsers]
        | exact getBrowserStart_maxBrowsers s cid
  | release bid => exact releaseBrowser_maxBrowsers s bid
  | timeout cid => simp [stepSeq, timeoutFire]

lemma poolInv_runSeq (ops : List SeqOp) :
    ∀ s : PoolState, PoolInv s → PoolInv (runSeq s ops) ∧
      (runSeq s ops).maxBrowsers = s.maxBrowsers := by
  induction ops with
  | nil => intro s h; exact ⟨h, rfl⟩
  | cons op rest ih =>
    intro s h
    have h1 := poolInv_stepSeq s op h
    have h2 := maxBrowsers_stepSeq s op
    obtain ⟨ha, hb⟩ := ih (stepSeq s op) h1
    exact ⟨ha, by rw [runSeq] at hb ⊢; simpa [List.foldl_cons, h2] using hb.trans h2⟩

/-- C1 (amended): for non-overlapping histories of acquire, release and
timeout operations starting from a freshly constructed pool of maximum size
`M`, the active count never exceeds `M`. -/
theorem sequential_active_le_max (M : Nat) (ops : List SeqOp) :
    (runSeq (initPool M) ops).activeBrowsers ≤ (M : Int) := by
  have hinit : PoolInv (initPool M) := by
    constructor <;> simp [initPool, activeFlags]
  obtain ⟨⟨h1, _⟩, hmax⟩ := poolInv_runSeq ops (initPool M) hinit
  have h2 : activeFlags (runSeq (initPool M) ops).browsers ≤
      (runSeq (initPool M) ops).browsers.length := activeFlags_le_length _
  have h3 : (runSeq (initPool M) ops).browsers.length ≤ M := by
    have := (poolInv_runSeq ops (initPool M) hinit).1.2
    rwa [hmax] at this
  calc (runSeq (initPool M) ops).activeBrowsers
      ≤ (activeFlags (runSeq (initPool M) ops).browsers : Int) := h1
    _ ≤ (M : Int) := by exact_mod_cast h2.trans h3

/-- C1 (counterexample): two `getBrowser` calls that overlap — both run
their `browsers.length < maxBrowsers` check before either finishes creating
its browser — drive the active count to 2 on a pool with maximum size 1. -/
theorem concurrent_acquires_exceed_max :
    (runTrace (initPool 1)
        [.acquireStart 1, .acquireStart 2, .createFinish 1, .createFinish 2]).activeBrowsers = 2
    ∧ ¬ ((runTrace (initPool 1)
        [.acquireStart 1, .acquireStart 2, .createFinish 1, .createFinish 2]).activeBrowsers
          ≤ ((1 : Nat) : Int)) := by
  constructor
  · rfl
  · decide

end BrowserPool

namespace BrowserPool

lemma callStatusOf_settleWith_self (f : CallStatus → CallStatus)
    (calls : List (Nat × CallStatus)) (cid : Nat) :
    callStatusOf (settleWith f calls cid) cid = (callStatusOf calls cid).map f := by
  induction calls with
  | nil => simp [settleWith, callStatusOf]
  | cons p rest ih =>
    by_cases hp : p.1 == cid
    · simp [settleWith, hp, callStatusOf]
    · simp [settleWith, hp, callStatusOf, ih]

lemma callStatusOf_settleWith_other (f : CallStatus → CallStatus)
    (calls : List (Nat × CallStatus)) (cid c : Nat) (h : ¬ c = cid) :
    callStatusOf (settleWith f calls cid) c = callStatusOf calls c := by
  induction calls with
  | nil => simp [settleWith]
  | cons p rest ih =>
    by_cases hp : p.1 == cid
    · have hpc : ¬ p.1 == c := by
        simp only [beq_iff_eq] at hp ⊢
        omega
      simp [settleWith, hp, callStatusOf, hpc]
    · simp [settleWith, hp, callStatusOf, ih]

lemma find_setInactiveFirst (bid : Nat) (bs : List BrowserEntry)
    (h : bs.any (fun e => e.bid == bid) = true) :
    ((setInactiveFirst bid bs).find? (fun e => e.bid == bid)).map (fun e => e.isActive)
      = some false := by
  induction bs with
  | nil => simp at h
  | cons e rest ih =>
    by_cases he : e.bid == bid
    · simp [setInactiveFirst, he, List.find?_cons_of_pos]
    · have h2 : rest.any (fun e => e.bid == bid) = true := by
        simpa [List.any_cons, he] using h
      simp [setInactiveFirst, he, List.find?_cons_of_neg, ih h2]

/-- C2 (counterexample): pool of maximum size 1, browser 0 active, call 2
waiting in the queue.  `releaseBrowser` does hand browser 0 to waiter 2, but
it also marks the wrapper idle and drops the active count from 1 to 0 during
the handover — the claim asserts neither happens. -/
theorem release_handover_drops_active_counterexample :
    (runTrace (initPool 1) [.acquireStart 1, .createFinish 1, .acquireStart 2]).activeBrowsers = 1
    ∧ callStatusOf (releaseBrowser (runTrace (initPool 1)
        [.acquireStart 1, .createFinish 1, .acquireStart 2]) 0).calls 2 = some (.served 0)
    ∧ ((releaseBrowser (runTrace (initPool 1)
        [.acquireStart 1, .createFinish 1, .acquireStart 2]) 0).browsers.find?
          (fun e => e.bid == 0)).map (fun e => e.isActive) = some false
    ∧ (releaseBrowser (runTrace (initPool 1)
        [.acquireStart 1, .createFinish 1, .acquireStart 2]) 0).activeBrowsers = 0 := by
  refine ⟨by decide, by decide, by decide, by decide⟩

/-- C2 (amended): releasing a tracked browser while the wait queue is
non-empty pops the oldest waiter and resolves it with that browser directly
— later waiters are untouched, so `W1` is served strictly before `W2` — but
the wrapper is still marked idle and the active count still drops during the
handover. -/
theorem release_serves_oldest_waiter (s : PoolState) (bid cid : Nat) (rest : List Nat)
    (hq : s.queue = cid :: rest)
    (hb : s.browsers.any (fun e => e.bid == bid) = true)
    (hw : callStatusOf s.calls cid = some .waiting) :
    (releaseBrowser s bid).queue = rest
    ∧ callStatusOf (releaseBrowser s bid).calls cid = some (.served bid)
    ∧ (∀ c, ¬ c = cid →
        callStatusOf (releaseBrowser s bid).calls c = callStatusOf s.calls c)
    ∧ ((releaseBrowser s bid).browsers.find? (fun e => e.bid == bid)).map
        (fun e => e.isActive) = some false
    ∧ (releaseBrowser s bid).activeBrowsers = s.activeBrowsers - 1 := by
  obtain ⟨hbs, hact, _⟩ := releaseBrowser_found s bid hb
  obtain ⟨hq2, hcalls⟩ := releaseBrowser_found_queue s bid cid rest hb hq
  refine ⟨hq2, ?_, ?_, ?_, hact⟩
  · rw [hcalls, callStatusOf_settleWith_self, hw]
    rfl
  · intro c hc
    rw [hcalls, callStatusOf_settleWith_other _ _ _ _ hc]
  · rw [hbs]
    exact find_setInactiveFirst bid s.browsers hb

/-- C2 witness: maximum size 1, browser 0 held by call 1, calls 2 then 3
enqueued; releasing browser 0 serves call 2 and leaves call 3 waiting. -/
theorem release_serves_oldest_waiter_witness :
    (runTrace (initPool 1)
        [.acquireStart 1, .createFinish 1, .acquireStart 2, .acquireStart 3]).queue = 2 :: [3]
    ∧ (runTrace (initPool 1)
        [.acquireStart 1, .createFinish 1, .acquireStart 2, .acquireStart 3]).browsers.any
          (fun e => e.bid == 0) = true
    ∧ callStatusOf (runTrace (initPool 1)
        [.acquireStart 1, .createFinish 1, .acquireStart 2, .acquireStart 3]).calls 2
        = some .waiting
    ∧ ((releaseBrowser (runTrace (initPool 1)
          [.acquireStart 1, .createFinish 1, .acquireStart 2, .acquireStart 3]) 0).queue = [3]
      ∧ callStatusOf (releaseBrowser (runTrace (initPool 1)
          [.acquireStart 1, .createFinish 1, .acquireStart 2, .acquireStart 3]) 0).calls 2
          = some (.served 0)
      ∧ (∀ c, ¬ c = 2 →
          callStatusOf (releaseBrowser (runTrace (initPool 1)
            [.acquireStart 1, .createFinish 1, .acquireStart 2, .acquireStart 3]) 0).calls c
          = callStatusOf (runTrace (initPool 1)
            [.acquireStart 1, .createFinish 1, .acquireStart 2, .acquireStart 3]).calls c)
      ∧ ((releaseBrowser (runTrace (initPool 1)
            [.acquireStart 1, .createFinish 1, .acquireStart 2, .acquireStart 3]) 0).browsers.find?
              (fun e => e.bid == 0)).map (fun e => e.isActive) = some false
      ∧ (releaseBrowser (runTrace (initPool 1)
            [.acquireStart 1, .createFinish 1, .acquireStart 2, .acquireStart 3]) 0).activeBrowsers
          = (runTrace (initPool 1)
            [.acquireStart 1, .createFinish 1, .acquireStart 2, .acquireStart 3]).activeBrowsers - 1) :=
  ⟨by decide, by decide, by decide,
    release_serves_oldest_waiter _ 0 2 [3] (by decide) (by decide) (by decide)⟩

/-- C3 (counterexample): call 2 is enqueued on a saturated pool of maximum
size 1; when its timeout fires it is rejected with the pool-timeout error,
yet its record is still in the queue — the claim asserts the slot is
removed, leaving no residual entry. -/
theorem timeout_residual_entry_counterexample :
    callStatusOf (timeoutFire (runTrace (initPool 1)
        [.acquireStart 1, .createFinish 1, .acquireStart 2]) 2).calls 2
      = some (.failed .poolTimeout)
    ∧ (timeoutFire (runTrace (initPool 1)
        [.acquireStart 1, .createFinish 1, .acquireStart 2]) 2).queue = [2]
    ∧ ¬ (timeoutFire (runTrace (initPool 1)
        [.acquireStart 1, .createFinish 1, .acquireStart 2]) 2).queue = [] := by
  refine ⟨by decide, by decide, by decide⟩

/-- C3 (amended): when an enqueued acquire exceeds its timeout the promise
is rejected with the pool-timeout error, but the queue is left exactly as it
was — the stale record is not removed (it is only discarded later, when a
release shifts it and its no-op `resolve` drops the browser handover). -/
theorem timeout_rejects_but_queue_keeps_entry (s : PoolState) (cid : Nat)
    (hw : callStatusOf s.calls cid = some .waiting) :
    callStatusOf (timeoutFire s cid).calls cid = some (.failed .poolTimeout)
    ∧ (timeoutFire s cid).queue = s.queue
    ∧ (timeoutFire s cid).browsers = s.browsers
    ∧ (timeoutFire s cid).activeBrowsers = s.activeBrowsers := by
  refine ⟨?_, rfl, rfl, rfl⟩
  show callStatusOf (settleWith rejectWaiting s.calls cid) cid = some (.failed .poolTimeout)
  rw [callStatusOf_settleWith_self, hw]
  rfl

/-- C3 witness: the enqueued call 2 of a saturated size-1 pool. -/
theorem timeout_rejects_but_queue_keeps_entry_witness :
    callStatusOf (runTrace (initPool 1)
        [.acquireStart 1, .createFinish 1, .acquireStart 2]).calls 2 = some .waiting
    ∧ (callStatusOf (timeoutFire (runTrace (initPool 1)
          [.acquireStart 1, .createFinish 1, .acquireStart 2]) 2).calls 2
        = some (.failed .poolTimeout)
      ∧ (timeoutFire (runTrace (initPool 1)
          [.acquireStart 1, .createFinish 1, .acquireStart 2]) 2).queue
        = (runTrace (initPool 1)
          [.acquireStart 1, .createFinish 1, .acquireStart 2]).queue
      ∧ (timeoutFire (runTrace (initPool 1)
          [.acquireStart 1, .createFinish 1, .acquireStart 2]) 2).browsers
        = (runTrace (initPool 1)
          [.acquireStart 1, .createFinish 1, .acquireStart 2]).browsers
      ∧ (timeoutFire (runTrace (initPool 1)
          [.acquireStart 1, .createFinish 1, .acquireStart 2]) 2).activeBrowsers
        = (runTrace (initPool 1)
          [.acquireStart 1, .createFinish 1, .acquireStart 2]).activeBrowsers) :=
  ⟨by decide, timeout_rejects_but_queue_keeps_entry _ 2 (by decide)⟩

/-- C4: a pool of maximum size 1 whose only browser (id 0, active, count 1)
reports disconnection.  `removeBrowser` splices the wrapper out but the
decrement is guarded by the always-undefined `browser.isActive` property, so
the active count stays 1 instead of dropping to 0. -/
theorem removeBrowser_keeps_active_count :
    (runTrace (initPool 1) [.acquireStart 1, .createFinish 1]).activeBrowsers = 1
    ∧ ((runTrace (initPool 1)
        [.acquireStart 1, .createFinish 1]).browsers.find? (fun e => e.bid == 0)).map
          (fun e => e.isActive) = some true
    ∧ (removeBrowser (runTrace (initPool 1) [.acquireStart 1, .createFinish 1]) 0).browsers = []
    ∧ (removeBrowser (runTrace (initPool 1) [.acquireStart 1, .createFinish 1]) 0).activeBrowsers
        = 1 := by
  refine ⟨by decide, by decide, by decide, by decide⟩

/-- C5: `executeWithBrowser` with an acquired (tracked) browser reports the
operation outcome — success value or thrown error — to the caller unchanged,
and on both exit paths the final pool state is exactly the released one: the
wrapper is back to idle and the active count is decremented. -/
theorem executeWithBrowser_releases_and_reports (s : PoolState) (b : Nat)
    (op : Nat → Except ε α)
    (hb : s.browsers.any (fun e => e.bid == b) = true) :
    (executeWithBrowser s (.ok b) op).2 = op b
    ∧ (executeWithBrowser s (.ok b) op).1 = releaseBrowser s b
    ∧ ((executeWithBrowser s (.ok b) op).1.browsers.find? (fun e => e.bid == b)).map
        (fun e => e.isActive) = some false
    ∧ (executeWithBrowser s (.ok b) op).1.activeBrowsers = s.activeBrowsers - 1 := by
  obtain ⟨hbs, hact, _⟩ := releaseBrowser_found s b hb
  have hfind : ((releaseBrowser s b).browsers.find? (fun e => e.bid == b)).map
      (fun e => e.isActive) = some false := by
    rw [hbs]
    exact find_setInactiveFirst b s.browsers hb
  cases hop : op b with
  | ok v => exact ⟨by simp [executeWithBrowser, hop], by simp [executeWithBrowser, hop],
      by simpa [executeWithBrowser, hop] using hfind,
      by simpa [executeWithBrowser, hop] using hact⟩
  | error e => exact ⟨by simp [executeWithBrowser, hop], by simp [executeWithBrowser, hop],
      by simpa [executeWithBrowser, hop] using hfind,
      by simpa [executeWithBrowser, hop] using hact⟩

/-- C5 witness: the single active browser of a size-1 pool, released on the
error path of a failing operation. -/
theorem executeWithBrowser_releases_and_reports_witness :
    (runTrace (initPool 1) [.acquireStart 1, .createFinish 1]).browsers.any
        (fun e => e.bid == 0) = true
    ∧ ((executeWithBrowser (runTrace (initPool 1) [.acquireStart 1, .createFinish 1])
          (.ok 0) (fun _ => (.error 7 : Except Nat Nat))).2 = (fun _ => (.error 7 : Except Nat Nat)) 0
      ∧ (executeWithBrowser (runTrace (initPool 1) [.acquireStart 1, .createFinish 1])
          (.ok 0) (fun _ => (.error 7 : Except Nat Nat))).1
        = releaseBrowser (runTrace (initPool 1) [.acquireStart 1, .createFinish 1]) 0
      ∧ ((executeWithBrowser (runTrace (initPool 1) [.acquireStart 1, .createFinish 1])
            (.ok 0) (fun _ => (.error 7 : Except Nat Nat))).1.browsers.find?
            (fun e => e.bid == 0)).map (fun e => e.isActive) = some false
      ∧ (executeWithBrowser (runTrace (initPool 1) [.acquireStart 1, .createFinish 1])
          (.ok 0) (fun _ => (.error 7 : Except Nat Nat))).1.activeBrowsers
        = (runTrace (initPool 1) [.acquireStart 1, .createFinish 1]).activeBrowsers - 1) :=
  ⟨by decide, executeWithBrowser_releases_and_reports _ 0 _ (by decide)⟩

/-- C10: releasing a browser that is not tracked in `this.browsers` is a
complete no-op — the whole release body is guarded by the identity lookup,
so the browser list, the active count and the wait queue are unchanged and
no queued waiter is served. -/
theorem releaseBrowser_untracked_noop (s : PoolState) (bid : Nat)
    (h : s.browsers.any (fun e => e.bid == bid) = false) :
    releaseBrowser s bid = s := by
  simp [releaseBrowser, h]

/-- C10 witness: an untracked browser id 5 released on a saturated pool with
a non-empty wait queue; the state (queue included) is untouched. -/
theorem releaseBrowser_untracked_noop_witness :
    (runTrace (initPool 1)
        [.acquireStart 1, .createFinish 1, .acquireStart 2]).browsers.any
        (fun e => e.bid == 5) = false
    ∧ releaseBrowser (runTrace (initPool 1)
        [.acquireStart 1, .createFinish 1, .acquireStart 2]) 5
      = runTrace (initPool 1) [.acquireStart 1, .createFinish 1, .acquireStart 2] :=
  ⟨by decide, releaseBrowser_untracked_noop _ 5 (by decide)⟩

end BrowserPool

/-!
The `OptimizedScheduler` (`src/unnamed/part_003`): the single-flight guard of
`runDataCollection` (lines 174-225) and the retry loop `executeWithRetry`
(lines 142-172).  `runDataCollection` checks the running flags and sets them
before its first suspension point, so a competing invocation entering later
in the same turn — or at any point before the `finally` — observes them set;
the guarded body (the two scrapers) is counted explicitly.  Scraper failures
are absorbed by `Promise.allSettled` into empty result lists, and the
`finally` clears both flags on every path.
-/

namespace OptimizedScheduler

/-- The `this.isRunning` flags touched by `runDataCollection`, plus
instrumentation counting how many times each scraper body was started. -/
structure SchedState where
  permitsRunning : Bool
  jobsRunning : Bool
  permitsBodyRuns : Nat
  jobsBodyRuns : Nat
deriving DecidableEq, Repr

/-- The guard `this.isRunning.permits || this.isRunning.jobs` (line 175). -/
def runDataCollectionGuard (s : SchedState) : Bool :=
  s.permitsRunning || s.jobsRunning

/-- The synchronous segment after the guard passes (lines 184-189): both
flags set and both scraper bodies invoked, before any suspension. -/
def runDataCollectionEnter (s : SchedState) : SchedState :=
  { s with permitsRunning := true, jobsRunning := true,
           permitsBodyRuns := s.permitsBodyRuns + 1,
           jobsBodyRuns := s.jobsBodyRuns + 1 }

/-- The `finally` block (lines 221-224): both flags cleared, whatever
happened in the body. -/
def runDataCollectionFinally (s : SchedState) : SchedState :=
  { s with permitsRunning := false, jobsRunning := false }

/-- Lines 196-197: a settled scraper promise contributes its value when
fulfilled and `[]` when rejected. -/
def settledOrEmpty (x : Except ε (List Nat)) : List Nat :=
  match x with
  | .ok l => l
  | .error _ => []

/-- `runDataCollection` run to completion with no competing invocation, its
scraper outcomes given as parameters: skipped with the empty result
`{ permits: [], jobs: [] }` when the guard is set, otherwise
enter-body-finally. -/
def runDataCollection (s : SchedState) (p j : Except ε (List Nat)) :
    SchedState × List Nat × List Nat :=
  if runDataCollectionGuard s then (s, [], [])
  else (runDataCollectionFinally (runDataCollectionEnter s),
        settledOrEmpty p, settledOrEmpty j)

/-- C6: while one guarded run is between its flag-set and its `finally`, a
second `runDataCollection` call returns the skipped empty result with the
state — body-invocation counters included — completely unchanged, so the two
overlapping calls execute each scraper body exactly once; and the first
run's `finally` clears both flags whether its scrapers succeeded or failed
(`p` and `j` range over failures too). -/
theorem runDataCollection_single_flight (s : SchedState) (p j p2 j2 : Except ε (List Nat))
    (h : runDataCollectionGuard s = false) :
    runDataCollection (runDataCollectionEnter s) p2 j2 = (runDataCollectionEnter s, [], [])
    ∧ (runDataCollectionEnter s).permitsBodyRuns = s.permitsBodyRuns + 1
    ∧ (runDataCollectionEnter s).jobsBodyRuns = s.jobsBodyRuns + 1
    ∧ (runDataCollection s p j).1.permitsRunning = false
    ∧ (runDataCollection s p j).1.jobsRunning = false
    ∧ (runDataCollection s p j).1.permitsBodyRuns = s.permitsBodyRuns + 1
    ∧ (runDataCollection s p j).1.jobsBodyRuns = s.jobsBodyRuns + 1 := by
  refine ⟨?_, rfl, rfl, ?_, ?_, ?_, ?_⟩
  · simp [runDataCollection, runDataCollectionGuard, runDataCollectionEnter]
  all_goals simp [runDataCollection, h, runDataCollectionEnter, runDataCollectionFinally]

/-- C6 witness: an idle scheduler; the overlapped second call is skipped and
the first call's failing scrapers still clear the flags. -/
theorem runDataCollection_single_flight_witness :
    runDataCollectionGuard ⟨false, false, 0, 0⟩ = false
    ∧ (runDataCollection (runDataCollectionEnter ⟨false, false, 0, 0⟩)
          (.error 1) (.error 2) = (runDataCollectionEnter ⟨false, false, 0, 0⟩, [], [])
      ∧ (runDataCollectionEnter (⟨false, false, 0, 0⟩ : SchedState)).permitsBodyRuns = 0 + 1
      ∧ (runDataCollectionEnter (⟨false, false, 0, 0⟩ : SchedState)).jobsBodyRuns = 0 + 1
      ∧ (runDataCollection (⟨false, false, 0, 0⟩ : SchedState)
          (.error 1) (.error 2)).1.permitsRunning = false
      ∧ (runDataCollection (⟨false, false, 0, 0⟩ : SchedState)
          (.error 1) (.error 2)).1.jobsRunning = false
      ∧ (runDataCollection (⟨false, false, 0, 0⟩ : SchedState)
          (.error 1) (.error 2)).1.permitsBodyRuns = 0 + 1
      ∧ (runDataCollection (⟨false, false, 0, 0⟩ : SchedState)
          (.error 1) (.error 2)).1.jobsBodyRuns = 0 + 1) :=
  ⟨by decide, runDataCollection_single_flight ⟨false, false, 0, 0⟩
    (.error 1) (.error 2) (.error 1) (.error 2) (by decide)⟩

deriving instance DecidableEq for Except

/-- One record of the per-attempt `logger.scheduler` calls and of the
backoff sleeps inside `executeWithRetry`. -/
inductive RetryEvent
  | started (attempt : Nat)
  | completed (attempt : Nat)
  | failedAttempt (attempt : Nat)
  | slept (ms : Nat)
deriving DecidableEq, Repr

/-- Outcome of one `executeWithRetry` run: the value returned or error
thrown (`none` is the `throw lastError` with `lastError` still `null`), the
per-attempt log, and the flag passed to the single `updateStats` call. -/
structure RetryRun (ε α : Type) where
  result : Except (Option ε) α
  log : List RetryEvent
  statsSuccess : Bool
deriving DecidableEq, Repr

/-- The `for (let attempt = 1; attempt <= retries; attempt++)` loop of
`executeWithRetry`, with the remaining iteration count as fuel
(`fuel = retries + 1 - attempt`).  Each iteration logs the start, then
either returns the operation value (after `updateStats(true, ...)`) or logs
the failure and — when another attempt remains — sleeps
`this.retryDelay * attempt` before retrying; when the loop exhausts,
`updateStats(false, ...)` runs and the last error is thrown. -/
def retryGo (op : Nat → Except ε α) (retries d : Nat) :
    Nat → Nat → Option ε → RetryRun ε α
  | 0, _, le => ⟨.error le, [], false⟩
  | fuel + 1, attempt, _ =>
    match op attempt with
    | .ok v => ⟨.ok v, [.started attempt, .completed attempt], true⟩
    | .error e =>
      if attempt < retries then
        let r := retryGo op retries d fuel (attempt + 1) (some e)
        ⟨r.result,
          .started attempt :: .failedAttempt attempt :: .slept (d * attempt) :: r.log,
          r.statsSuccess⟩
      else ⟨.error (some e), [.started attempt, .failedAttempt attempt], false⟩

/-- `executeWithRetry(jobType, operation, retries)` with backoff base `d`
(`this.retryDelay`), the operation given as its outcome per attempt number. -/
def executeWithRetry (op : Nat → Except ε α) (retries d : Nat) : RetryRun ε α :=
  retryGo op retries d retries 1 none

/-- Number of attempts started in a log. -/
def startedCount : List RetryEvent → Nat
  | [] => 0
  | .started _ :: rest => startedCount rest + 1
  | _ :: rest => startedCount rest

/-- Number of failed attempts recorded in a log. -/
def failedCount : List RetryEvent → Nat
  | [] => 0
  | .failedAttempt _ :: rest => failedCount rest + 1
  | _ :: rest => failedCount rest

/-- The backoff sleeps of a log, in order. -/
def sleepsOf : List RetryEvent → List Nat
  | [] => []
  | .slept ms :: rest => ms :: sleepsOf rest
  | _ :: rest => sleepsOf rest

/-- Whether an attempt outcome is a thrown error. -/
def isErrorRes (x : Except ε α) : Bool :=
  match x with
  | .error _ => true
  | .ok _ => false

/-- The error of a failed outcome. -/
def errOf (x : Except ε α) : Option ε :=
  match x with
  | .error e => some e
  | .ok _ => none

end OptimizedScheduler

namespace OptimizedScheduler

lemma retryGo_ok (op : Nat → Except ε α) (retries d : Nat) (v : α) :
    ∀ (j attempt : Nat) (le : Option ε),
      1 ≤ attempt → attempt + j ≤ retries →
      (∀ i, attempt ≤ i → i < attempt + j → isErrorRes (op i) = true) →
      op (attempt + j) = .ok v →
      (retryGo op retries d (retries + 1 - attempt) attempt le).result = .ok v
      ∧ startedCount (retryGo op retries d (retries + 1 - attempt) attempt le).log = j + 1
      ∧ sleepsOf (retryGo op retries d (retries + 1 - attempt) attempt le).log
          = (List.range j).map (fun i => d * (attempt + i))
      ∧ (retryGo op retries d (retries + 1 - attempt) attempt le).statsSuccess = true := by
  intro j
  induction j with
  | zero =>
    intro attempt le h1 h2 hfail hok
    have hfuel : retries + 1 - attempt = (retries - attempt) + 1 := by omega
    rw [hfuel]
    simp only [Nat.add_zero] at hok
    simp [retryGo, hok, startedCount, sleepsOf]
  | succ j ih =>
    intro attempt le h1 h2 hfail hok
    have hfuel : retries + 1 - attempt = (retries + 1 - (attempt + 1)) + 1 := by omega
    have hlt : attempt < retries := by omega
    have herr : isErrorRes (op attempt) = true := hfail attempt (le_refl _) (by omega)
    cases hop : op attempt with
    | ok w => rw [hop] at herr; simp [isErrorRes] at herr
    | error e =>
      obtain ⟨ir, is, isl, ist⟩ := ih (attempt + 1) (some e) (by omega) (by omega)
        (fun i hi1 hi2 => hfail i (by omega) (by omega))
        (by
          have harg : attempt + 1 + j = attempt + (j + 1) := by omega
          rw [harg]; exact hok)
      rw [hfuel]
      simp only [retryGo, hop, hlt, if_pos]
      refine ⟨ir, ?_, ?_, ist⟩
      · simp only [startedCount]
        omega
      · simp only [sleepsOf]
        rw [isl, List.range_succ_eq_map, List.map_cons, List.map_map]
        have hfun : ((fun i => d * (attempt + i)) ∘ Nat.succ) = fun i => d * (attempt + 1 + i) := by
          funext i
          simp only [Function.comp]
          congr 1
          omega
        rw [hfun]
        simp

lemma retryGo_exhausted (op : Nat → Except ε α) (retries d : Nat) :
    ∀ (j attempt : Nat) (le : Option ε),
      1 ≤ attempt → attempt + j = retries →
      (∀ i, attempt ≤ i → i ≤ retries → isErrorRes (op i) = true) →
      (retryGo op retries d (retries + 1 - attempt) attempt le).result = .error (errOf (op retries))
      ∧ startedCount (retryGo op retries d (retries + 1 - attempt) attempt le).log = j + 1
      ∧ failedCount (retryGo op retries d (retries + 1 - attempt) attempt le).log = j + 1
      ∧ sleepsOf (retryGo op retries d (retries + 1 - attempt) attempt le).log
          = (List.range j).map (fun i => d * (attempt + i))
      ∧ (retryGo op retries d (retries + 1 - attempt) attempt le).statsSuccess = false := by
  intro j
  induction j with
  | zero =>
    intro attempt le h1 h2 hfail
    have hattempt : attempt = retries := by omega
    have herr : isErrorRes (op attempt) = true := hfail attempt (le_refl _) (by omega)
    cases hop : op attempt with
    | ok w => rw [hop] at herr; simp [isErrorRes] at herr
    | error e =>
      have hfuel : retries + 1 - attempt = 0 + 1 := by omega
      have hnlt : ¬ attempt < retries := by omega
      have hval : retryGo op retries d (0 + 1) attempt le =
          ⟨.error (some e), [.started attempt, .failedAttempt attempt], false⟩ := by
        simp [retryGo, hop, hnlt]
      rw [hfuel, hval]
      refine ⟨?_, by simp [startedCount], by simp [failedCount], by simp [sleepsOf], rfl⟩
      rw [← hattempt, hop]
      rfl
  | succ j ih =>
    intro attempt le h1 h2 hfail
    have hfuel : retries + 1 - attempt = (retries + 1 - (attempt + 1)) + 1 := by omega
    have hlt : attempt < retries := by omega
    have herr : isErrorRes (op attempt) = true := hfail attempt (le_refl _) (by omega)
    cases hop : op attempt with
    | ok w => rw [hop] at herr; simp [isErrorRes] at herr
    | error e =>
      obtain ⟨ir, is, ifc, isl, ist⟩ := ih (attempt + 1) (some e) (by omega) (by omega)
        (fun i hi1 hi2 => hfail i (by omega) hi2)
      rw [hfuel]
      simp only [retryGo, hop, hlt, if_pos]
      refine ⟨ir, ?_, ?_, ?_, ist⟩
      · simp only [startedCount]
        omega
      · simp only [failedCount]
        omega
      · simp only [sleepsOf]
        rw [isl, List.range_succ_eq_map, List.map_cons, List.map_map]
        have hfun : ((fun i => d * (attempt + i)) ∘ Nat.succ) = fun i => d * (attempt + 1 + i) := by
          funext i
          simp only [Function.comp]
          congr 1
          omega
        rw [hfun]
        simp

end OptimizedScheduler

namespace OptimizedScheduler

/-- C7: an operation failing on every attempt before `k` and succeeding at
attempt `k ≤ maxAttempts` makes `executeWithRetry` return the success value,
record exactly `k` started attempts with backoff sleeps
`d*1, d*2, ..., d*(k-1)` between the failures, and report success to
`updateStats`; an operation failing on all `maxAttempts ≥ 1` attempts makes
it throw the error of the final attempt, record `maxAttempts` started and
`maxAttempts` failed attempts (with the same linear backoff between them),
and report failure to `updateStats`. -/
theorem executeWithRetry_attempts (op op2 : Nat → Except ε α) (retries d k : Nat) (v : α)
    (hk1 : 1 ≤ k) (hk2 : k ≤ retries)
    (hfail : ∀ i, i < k → 1 ≤ i → isErrorRes (op i) = true)
    (hok : op k = .ok v)
    (hr : 1 ≤ retries)
    (hfail2 : ∀ i, i ≤ retries → 1 ≤ i → isErrorRes (op2 i) = true) :
    (executeWithRetry op retries d).result = .ok v
    ∧ startedCount (executeWithRetry op retries d).log = k
    ∧ sleepsOf (executeWithRetry op retries d).log
        = (List.range (k - 1)).map (fun i => d * (1 + i))
    ∧ (executeWithRetry op retries d).statsSuccess = true
    ∧ (executeWithRetry op2 retries d).result = .error (errOf (op2 retries))
    ∧ startedCount (executeWithRetry op2 retries d).log = retries
    ∧ failedCount (executeWithRetry op2 retries d).log = retries
    ∧ sleepsOf (executeWithRetry op2 retries d).log
        = (List.range (retries - 1)).map (fun i => d * (1 + i))
    ∧ (executeWithRetry op2 retries d).statsSuccess = false := by
  have h1 := retryGo_ok op retries d v (k - 1) 1 none (le_refl _) (by omega)
    (fun i hi1 hi2 => hfail i (by omega) hi1)
    (by
      have harg : 1 + (k - 1) = k := by omega
      rw [harg]; exact hok)
  have h2 := retryGo_exhausted op2 retries d (retries - 1) 1 none (le_refl _) (by omega)
    (fun i hi1 hi2 => hfail2 i hi2 hi1)
  have e1 : retries + 1 - 1 = retries := by omega
  rw [e1] at h1 h2
  obtain ⟨a1, a2, a3, a4⟩ := h1
  obtain ⟨b1, b2, b3, b4, b5⟩ := h2
  have ek : k - 1 + 1 = k := by omega
  have er : retries - 1 + 1 = retries := by omega
  rw [ek] at a2
  rw [er] at b2 b3
  exact ⟨a1, a2, a3, a4, b1, b2, b3, b4, b5⟩

/-- C7 witness: `maxAttempts = 3`, backoff base 5; one operation fails at
attempts 1 and 2 and succeeds at attempt 3, the other fails at every
attempt. -/
theorem executeWithRetry_attempts_witness :
    (∀ i, i < 3 → 1 ≤ i →
      isErrorRes ((fun i => if i < 3 then (.error i : Except Nat Nat) else .ok 42) i) = true)
    ∧ ((executeWithRetry (fun i => if i < 3 then (.error i : Except Nat Nat) else .ok 42) 3 5).result
          = .ok 42
      ∧ startedCount (executeWithRetry
          (fun i => if i < 3 then (.error i : Except Nat Nat) else .ok 42) 3 5).log = 3
      ∧ sleepsOf (executeWithRetry
          (fun i => if i < 3 then (.error i : Except Nat Nat) else .ok 42) 3 5).log
          = (List.range (3 - 1)).map (fun i => 5 * (1 + i))
      ∧ (executeWithRetry
          (fun i => if i < 3 then (.error i : Except Nat Nat) else .ok 42) 3 5).statsSuccess = true
      ∧ (executeWithRetry (fun i => (.error i : Except Nat Nat)) 3 5).result
          = .error (errOf ((fun i => (.error i : Except Nat Nat)) 3))
      ∧ startedCount (executeWithRetry (fun i => (.error i : Except Nat Nat)) 3 5).log = 3
      ∧ failedCount (executeWithRetry (fun i => (.error i : Except Nat Nat)) 3 5).log = 3
      ∧ sleepsOf (executeWithRetry (fun i => (.error i : Except Nat Nat)) 3 5).log
          = (List.range (3 - 1)).map (fun i => 5 * (1 + i))
      ∧ (executeWithRetry (fun i => (.error i : Except Nat Nat)) 3 5).statsSuccess = false) :=
  ⟨by decide,
    executeWithRetry_attempts
      (fun i => if i < 3 then (.error i : Except Nat Nat) else .ok 42)
      (fun i => (.error i : Except Nat Nat)) 3 5 3 42
      (by decide) (by decide) (by decide) (by decide) (by decide) (by decide)⟩

end OptimizedScheduler

/-!
The `CacheManager.getOrSet` wrapper (`src/src/utils/monitor.js`, lines
532-561) over a node-cache instance.  A node-cache maps keys to values with
an absolute expiry stamp (`0` = no expiry); `get` returns the JavaScript
value `undefined` both for an absent or expired key and for a stored
`undefined`, which is why values are embedded as `Option V` with `none`
playing `undefined`. Keys are abstracted to naturals. -/

namespace CacheManager

/-- One node-cache region: its `stdTTL` and its live entries
`(key, stored value, expiry stamp)`. -/
structure NCache (V : Type) where
  stdTTL : Nat
  entries : List (Nat × Option V × Nat)
deriving DecidableEq, Repr

/-- The raw lookup: `some v` when the key is present and unexpired (`v` is
the stored value, possibly the `undefined` of a stored `none`), `none` when
absent or expired.  node-cache treats a stamp of `0` as never expiring and a
stamped entry as expired once the stamp is in the past. -/
def NCache.rawGet (c : NCache V) (k now : Nat) : Option (Option V) :=
  match c.entries.find? (fun e => e.1 == k) with
  | none => none
  | some e => if e.2.2 == 0 || now ≤ e.2.2 then some e.2.1 else none

/-- `cache.get(key)` as observed by JavaScript code: a miss, an expired
entry and a stored `undefined` are all `undefined`. -/
def NCache.get (c : NCache V) (k now : Nat) : Option V :=
  (c.rawGet k now).join

/-- `cache.set(key, value, ttl)`: overwrite the key with a fresh expiry
stamp (`0`, never expiring, when `ttl` is `0`). -/
def NCache.set (c : NCache V) (k : Nat) (v : Option V) (ttl now : Nat) : NCache V :=
  { c with entries :=
      (k, v, if ttl == 0 then 0 else now + ttl) :: c.entries.filter (fun e => ¬ e.1 == k) }

/-- `getOrSet(cache, key, fetchFunction, ttl)`: return the cached value when
`cache.get(key) !== undefined`; otherwise run the producer — on failure the
error propagates and nothing is cached, on success the result is stored
under `ttl` when that is truthy and under the region default otherwise.
`ttl = 0` models the falsy default `null`.  The third component reports
whether the producer was invoked. -/
def getOrSet (c : NCache V) (k : Nat) (producer : Except ε (Option V)) (ttl now : Nat) :
    NCache V × Except ε (Option V) × Bool :=
  let cached := c.get k now
  if cached.isSome then (c, .ok cached, false)
  else
    match producer with
    | .error e => (c, .error e, true)
    | .ok data =>
      if ttl == 0 then (c.set k data c.stdTTL now, .ok data, true)
      else (c.set k data ttl now, .ok data, true)

end CacheManager

namespace CacheManager

lemma set_get_within (c : NCache V) (k : Nat) (v : Option V) (ttl t0 t1 : Nat)
    (httl : 0 < ttl) (ht : t1 ≤ t0 + ttl) :
    (c.set k v ttl t0).get k t1 = v := by
  have h0 : (ttl == 0) = false := beq_eq_false_iff_ne.mpr (by omega)
  unfold NCache.set NCache.get NCache.rawGet
  simp only [h0, Bool.false_eq_true, if_false]
  rw [List.find?_cons_of_pos _ (by simp)]
  simp [ht]

lemma set_get_after (c : NCache V) (k : Nat) (v : Option V) (ttl t0 t2 : Nat)
    (httl : 0 < ttl) (ht : t0 + ttl < t2) :
    (c.set k v ttl t0).get k t2 = none := by
  have h0 : (ttl == 0) = false := beq_eq_false_iff_ne.mpr (by omega)
  unfold NCache.set NCache.get NCache.rawGet
  simp only [h0, Bool.false_eq_true, if_false]
  rw [List.find?_cons_of_pos _ (by simp)]
  have hne : (t0 + ttl == 0) = false := beq_eq_false_iff_ne.mpr (by omega)
  have hd : decide (t2 ≤ t0 + ttl) = false := decide_eq_false (by omega)
  simp [hne, hd]

lemma set_get_undefined (c : NCache V) (k ttl t0 t1 : Nat) :
    (c.set k none ttl t0).get k t1 = none := by
  unfold NCache.set NCache.get NCache.rawGet
  rw [List.find?_cons_of_pos _ (by simp)]
  by_cases hb : (ttl == 0) = true <;> simp only [hb, Bool.false_eq_true, if_true, if_false] <;>
    split <;> rfl

end CacheManager

namespace CacheManager

/-- C8: starting from a state where the key misses, a `getOrSet` with a
successful producer invokes it once and stores the result; a second call
before the TTL expires returns the cached value without invoking its
producer; a call after the TTL expires invokes its producer again.  With a
failing producer the error propagates, nothing is cached, and the next call
invokes its producer again from scratch. -/
theorem getOrSet_caches_until_ttl (c : NCache V) (k ttl t0 t1 t2 : Nat) (v : V)
    (p2 p3 p4 : Except ε (Option V)) (e : ε)
    (hmiss : c.get k t0 = none)
    (httl : 0 < ttl)
    (ht1 : t1 ≤ t0 + ttl)
    (ht2 : t0 + ttl < t2) :
    getOrSet c k ((.ok (some v)) : Except ε (Option V)) ttl t0
        = (c.set k (some v) ttl t0, .ok (some v), true)
    ∧ getOrSet (getOrSet c k ((.ok (some v)) : Except ε (Option V)) ttl t0).1 k p2 ttl t1
        = ((getOrSet c k ((.ok (some v)) : Except ε (Option V)) ttl t0).1, .ok (some v), false)
    ∧ (getOrSet (getOrSet c k ((.ok (some v)) : Except ε (Option V)) ttl t0).1 k p3 ttl t2).2.2
        = true
    ∧ getOrSet c k (.error e) ttl t0 = (c, .error e, true)
    ∧ (getOrSet c k p4 ttl t0).2.2 = true := by
  have h0 : (ttl == 0) = false := beq_eq_false_iff_ne.mpr (by omega)
  have hc1 : getOrSet c k ((.ok (some v)) : Except ε (Option V)) ttl t0
      = (c.set k (some v) ttl t0, .ok (some v), true) := by
    simp [getOrSet, hmiss, h0]
  have hg1 : (c.set k (some v) ttl t0).get k t1 = some v :=
    set_get_within c k (some v) ttl t0 t1 httl ht1
  have hg2 : (c.set k (some v) ttl t0).get k t2 = none :=
    set_get_after c k (some v) ttl t0 t2 httl ht2
  refine ⟨hc1, ?_, ?_, ?_, ?_⟩
  · rw [hc1]
    simp [getOrSet, hg1]
  · rw [hc1]
    cases p3 <;> simp [getOrSet, hg2, h0]
  · simp [getOrSet, hmiss]
  · cases p4 <;> simp [getOrSet, hmiss, h0]

/-- C8 witness: an empty region with default TTL 100, key 1, value 5 stored
under TTL 10 at time 0, re-read at times 10 (hit) and 11 (recompute), plus
the failing-producer round trip. -/
theorem getOrSet_caches_until_ttl_witness :
    (⟨100, []⟩ : NCache Nat).get 1 0 = none
    ∧ (getOrSet (⟨100, []⟩ : NCache Nat) 1 ((.ok (some 5)) : Except Nat (Option Nat)) 10 0
          = ((⟨100, []⟩ : NCache Nat).set 1 (some 5) 10 0, .ok (some 5), true)
      ∧ getOrSet (getOrSet (⟨100, []⟩ : NCache Nat) 1
            ((.ok (some 5)) : Except Nat (Option Nat)) 10 0).1 1
            ((.ok (some 7)) : Except Nat (Option Nat)) 10 10
          = ((getOrSet (⟨100, []⟩ : NCache Nat) 1
            ((.ok (some 5)) : Except Nat (Option Nat)) 10 0).1, .ok (some 5), false)
      ∧ (getOrSet (getOrSet (⟨100, []⟩ : NCache Nat) 1
            ((.ok (some 5)) : Except Nat (Option Nat)) 10 0).1 1
            ((.ok (some 7)) : Except Nat (Option Nat)) 10 11).2.2 = true
      ∧ getOrSet (⟨100, []⟩ : NCache Nat) 1 ((.error 3) : Except Nat (Option Nat)) 10 0
          = ((⟨100, []⟩ : NCache Nat), .error 3, true)
      ∧ (getOrSet (⟨100, []⟩ : NCache Nat) 1
            ((.ok (some 7)) : Except Nat (Option Nat)) 10 0).2.2 = true) :=
  ⟨by decide, getOrSet_caches_until_ttl (⟨100, []⟩ : NCache Nat) 1 10 0 10 11 5
    (.ok (some 7)) (.ok (some 7)) (.ok (some 7)) 3
    (by decide) (by decide) (by decide) (by decide)⟩

/-- C9: when the producer returns `undefined`, `getOrSet` does call
`cache.set`, but the stored `undefined` is indistinguishable from a miss
under `cached !== undefined`, so every later call for the key — at any time,
even before the TTL expires — invokes its producer again; the result is
never observed as a cache hit. -/
theorem getOrSet_undefined_never_hit (c : NCache V) (k ttl t0 t1 : Nat)
    (p2 : Except ε (Option V))
    (hmiss : c.get k t0 = none) :
    (getOrSet c k ((.ok none) : Except ε (Option V)) ttl t0).2 = (.ok none, true)
    ∧ (getOrSet (getOrSet c k ((.ok none) : Except ε (Option V)) ttl t0).1 k p2 ttl t1).2.2
        = true := by
  by_cases h0 : (ttl == 0) = true
  · have hc1 : getOrSet c k ((.ok none) : Except ε (Option V)) ttl t0
        = (c.set k none c.stdTTL t0, .ok none, true) := by
      simp [getOrSet, hmiss, h0]
    refine ⟨by rw [hc1], ?_⟩
    rw [hc1]
    cases p2 <;> simp [getOrSet, set_get_undefined, h0]
  · have hc1 : getOrSet c k ((.ok none) : Except ε (Option V)) ttl t0
        = (c.set k none ttl t0, .ok none, true) := by
      simp [getOrSet, hmiss, h0]
    refine ⟨by rw [hc1], ?_⟩
    rw [hc1]
    cases p2 <;> simp [getOrSet, set_get_undefined, h0]

/-- C9 witness: an `undefined` producer result stored at time 0 under TTL
100 is recomputed already at time 50, well before expiry. -/
theorem getOrSet_undefined_never_hit_witness :
    (⟨100, []⟩ : NCache Nat).get 1 0 = none
    ∧ ((getOrSet (⟨100, []⟩ : NCache Nat) 1 ((.ok none) : Except Nat (Option Nat)) 100 0).2
        = (.ok none, true)
      ∧ (getOrSet (getOrSet (⟨100, []⟩ : NCache Nat) 1
            ((.ok none) : Except Nat (Option Nat)) 100 0).1 1
            ((.ok (some 9)) : Except Nat (Option Nat)) 100 50).2.2 = true) :=
  ⟨by decide, getOrSet_undefined_never_hit (⟨100, []⟩ : NCache Nat) 1 100 0 50
    (.ok (some 9)) (by decide)⟩

end CacheManager
